import Mathlib

/-!
Verification of `scripts/pdf_to_images.py` (pdf-ocr-helper).

The script is a thin wrapper around the PyMuPDF library: it opens a PDF,
renders every page at a fixed 2x scale, writes `page-{n}.png` files, and
reports a JSON dictionary.  We embed it shallowly: every effectful library
or OS call is an oracle in an `Env`, exceptions are `Except.error` values
carrying the exception message (`str(e)`), the filesystem is the list of
paths present, and the execution emits an event trace so that temporal and
frame properties can be stated.
-/

namespace PdfOcr

/-- Python values appearing in the result dictionaries of the script. -/
inductive PyVal where
  | bool (b : Bool)
  | int (n : Nat)
  | str (s : String)
  | list (xs : List PyVal)

/-- A Python dict, as an ordered association list (keys as inserted). -/
abbrev PyDict := List (String × PyVal)

/-- Observable events of one run: each library/OS call that succeeded,
in order.  `convertCalled` marks entry into `pdf_to_images`. -/
inductive Event where
  | convertCalled (pdf_path output_dir : String)
  | makedirs (dir : String)
  | openDoc (path : String) (pages : Nat)
  | loadPage (n : Nat)
  | getPixmap (n : Nat) (sx sy : Nat)
  | fileWritten (path : String)
  | closeDoc
  deriving DecidableEq, Repr

/-- Oracle for the PyMuPDF / OS calls made by `pdf_to_images`.  Each call
either succeeds or raises an exception with a textual message. -/
structure Env where
  makedirs : String → Except String Unit
  openDoc : String → Except String Nat
  loadPage : Nat → Except String Unit
  getPixmap : Nat → Nat → Nat → Except String Unit
  savePix : Nat → String → Except String Unit

/-- Models `f"page-{page_num + 1}.png"` at line 40 of the script. -/
def pageFileName (page_num : Nat) : String :=
  "page-" ++ Nat.repr (page_num + 1) ++ ".png"

/-- Models `os.path.join(output_dir, file)`. -/
def joinPath (dir file : String) : String := dir ++ "/" ++ file

/-- The success dictionary built at lines 46-50:
`{"success": True, "pages": len(image_paths), "image_paths": image_paths}`. -/
def okDict (image_paths : List String) : PyDict :=
  [("success", PyVal.bool true),
   ("pages", PyVal.int image_paths.length),
   ("image_paths", PyVal.list (image_paths.map PyVal.str))]

/-- The failure dictionary built at lines 53-56:
`{"success": False, "error": str(e)}`. -/
def errDict (e : String) : PyDict :=
  [("success", PyVal.bool false), ("error", PyVal.str e)]

/-- Models the `for page_num in range(len(doc))` loop (lines 32-42): load the page,
render a pixmap with `fitz.Matrix(2, 2)`, save it to
`output_dir/page-{page_num+1}.png`, append the path.  Threads the
accumulated `image_paths`, the event trace and the filesystem; an
exception in any call aborts the loop immediately. -/
def processPages (env : Env) (output_dir : String) :
    List Nat → List String → List Event → List String →
    Except String (List String) × List Event × List String
  | [], image_paths, tr, fs => (Except.ok image_paths, tr, fs)
  | n :: rest, image_paths, tr, fs =>
    match env.loadPage n with
    | Except.error e => (Except.error e, tr, fs)
    | Except.ok _ =>
      let tr1 := tr ++ [Event.loadPage n]
      match env.getPixmap n 2 2 with
      | Except.error e => (Except.error e, tr1, fs)
      | Except.ok _ =>
        let tr2 := tr1 ++ [Event.getPixmap n 2 2]
        let image_path := joinPath output_dir (pageFileName n)
        match env.savePix n image_path with
        | Except.error e => (Except.error e, tr2, fs)
        | Except.ok _ =>
          processPages env output_dir rest (image_paths ++ [image_path])
            (tr2 ++ [Event.fileWritten image_path]) (fs ++ [image_path])

/-- Models `pdf_to_images(pdf_path, output_dir)` (lines 13-56): create the output
directory, open the document, process every page, close the document, and
return the success dictionary; any exception is caught by the `except`
clause and turned into the failure dictionary.  Returns the dictionary,
the event trace and the final filesystem. -/
def pdf_to_images (env : Env) (fs0 : List String) (pdf_path output_dir : String) :
    PyDict × List Event × List String :=
  let tr0 := [Event.convertCalled pdf_path output_dir]
  match env.makedirs output_dir with
  | Except.error e => (errDict e, tr0, fs0)
  | Except.ok _ =>
    let tr1 := tr0 ++ [Event.makedirs output_dir]
    match env.openDoc pdf_path with
    | Except.error e => (errDict e, tr1, fs0)
    | Except.ok pageCount =>
      let tr2 := tr1 ++ [Event.openDoc pdf_path pageCount]
      match processPages env output_dir (List.range pageCount) [] tr2 fs0 with
      | (Except.error e, tr, fs) => (errDict e, tr, fs)
      | (Except.ok image_paths, tr, fs) =>
        (okDict image_paths, tr ++ [Event.closeDoc], fs)

/-- The process-level inputs: `sys.argv` (program name included), and the
`os.path` predicates.  `isRegularFile` models `os.path.isfile`; the script
never consults it, only `os.path.exists`. -/
structure OS where
  argv : List String
  pathExists : String → Bool
  isRegularFile : String → Bool

/-- Observable outcome of one process run. -/
structure RunResult where
  stdout : List PyDict
  exitCode : Nat
  events : List Event
  fs : List String

/-- The usage error message printed at line 62. -/
def usageError : String := "Usage: python pdf_to_images.py <pdf_path> <output_dir>"

/-- The not-found error message printed at line 73: `f"PDF file not found: {pdf_path}"`. -/
def notFoundError (pdf_path : String) : String := "PDF file not found: " ++ pdf_path

/-- Models `main()` (lines 58-79): argument-count check, existence check, then the
conversion; the result dictionary is printed and the process exits 0. -/
def main (env : Env) (os : OS) (fs0 : List String) : RunResult :=
  if h : os.argv.length ≠ 3 then
    ⟨[errDict usageError], 1, [], fs0⟩
  else
    let pdf_path := os.argv.get ⟨1, by omega⟩
    let output_dir := os.argv.get ⟨2, by omega⟩
    if os.pathExists pdf_path = false then
      ⟨[errDict (notFoundError pdf_path)], 1, [], fs0⟩
    else
      let res := pdf_to_images env fs0 pdf_path output_dir
      ⟨[res.1], 0, res.2.1, res.2.2⟩

/-- The paths of the files written during a trace fragment. -/
def writtenPaths (tr : List Event) : List String :=
  tr.filterMap (fun e => match e with | Event.fileWritten p => some p | _ => none)

/-- Holds when `e` is the message of an exception that the environment
raises on some call the script can make with these arguments. -/
def Env.raises (env : Env) (pdf_path output_dir : String) (e : String) : Prop :=
  env.makedirs output_dir = Except.error e ∨
  env.openDoc pdf_path = Except.error e ∨
  (∃ n, env.loadPage n = Except.error e) ∨
  (∃ n, env.getPixmap n 2 2 = Except.error e) ∨
  (∃ n s, env.savePix n s = Except.error e)

/-- Numeric value of a decimal digit character (inverse of `Nat.digitChar`
on digits below 10). -/
def digitVal (c : Char) : Nat :=
  if c = '0' then 0 else if c = '1' then 1 else if c = '2' then 2 else
  if c = '3' then 3 else if c = '4' then 4 else if c = '5' then 5 else
  if c = '6' then 6 else if c = '7' then 7 else if c = '8' then 8 else
  if c = '9' then 9 else 0

/-- Decimal value of a digit string. -/
def decChars (cs : List Char) : Nat := cs.foldl (fun a c => a * 10 + digitVal c) 0

/-- The on-disk path of page `i` (0-based): `output_dir/page-{i+1}.png`. -/
def pagePath (d : String) (i : Nat) : String := joinPath d (pageFileName i)

/-- The three events the loop emits for page `n`. -/
def pageEvents (d : String) (n : Nat) : List Event :=
  [Event.loadPage n, Event.getPixmap n 2 2, Event.fileWritten (pagePath d n)]

/-- The full event trace of a successful run over an `N`-page document. -/
def successTrace (p d : String) (N : Nat) : List Event :=
  [Event.convertCalled p d, Event.makedirs d, Event.openDoc p N] ++
    (List.range N).flatMap (pageEvents d) ++ [Event.closeDoc]

/-- A library oracle on which every call succeeds and the document has `N`
pages.  Used to instantiate the theorems on concrete runs. -/
def envOk (N : Nat) : Env :=
  ⟨fun _ => Except.ok (), fun _ => Except.ok N, fun _ => Except.ok (),
   fun _ _ _ => Except.ok (), fun _ _ => Except.ok ()⟩

/-- A library oracle on which opening the document raises (e.g. the path
names a directory or a corrupt file). -/
def envBadOpen (msg : String) : Env :=
  { envOk 0 with openDoc := fun _ => Except.error msg }

/-- A library oracle on which saving the pixmap of page `k` raises. -/
def envBadSave (N k : Nat) (msg : String) : Env :=
  { envOk N with savePix := fun n _ =>
      if n = k then Except.error msg else Except.ok () }

/-- A concrete process context: the given `argv`, every path reported by
`os.path.exists` as `ex`, and no path a regular file. -/
def osFor (argv : List String) (ex : Bool) : OS := ⟨argv, fun _ => ex, fun _ => false⟩

/-! ### Injectivity of the decimal numeral in the page file names -/

theorem digitVal_digitChar : ∀ d : Nat, d < 10 → digitVal (Nat.digitChar d) = d := by
  decide

theorem toDigitsCore_append (fuel : Nat) :
    ∀ (n : Nat) (ds : List Char),
      Nat.toDigitsCore 10 fuel n ds = Nat.toDigitsCore 10 fuel n [] ++ ds := by
  induction fuel with
  | zero => intro n ds; simp [Nat.toDigitsCore]
  | succ fuel ih =>
    intro n ds
    simp only [Nat.toDigitsCore]
    by_cases h : n / 10 = 0
    · simp [h]
    · rw [if_neg h, if_neg h, ih (n / 10) (Nat.digitChar (n % 10) :: ds),
        ih (n / 10) [Nat.digitChar (n % 10)]]
      simp

theorem foldl_toDigitsCore (fuel : Nat) :
    ∀ n : Nat, n < fuel → ∀ acc : Nat,
      List.foldl (fun a c => a * 10 + digitVal c) acc (Nat.toDigitsCore 10 fuel n []) =
        acc * 10 ^ (Nat.toDigitsCore 10 fuel n []).length + n := by
  induction fuel with
  | zero => intro n h; omega
  | succ fuel ih =>
    intro n hn acc
    simp only [Nat.toDigitsCore]
    by_cases h : n / 10 = 0
    · rw [if_pos h]
      simp only [List.foldl, List.length_singleton, pow_one]
      rw [digitVal_digitChar (n % 10) (by omega)]
      omega
    · rw [if_neg h, toDigitsCore_append fuel (n / 10) [Nat.digitChar (n % 10)]]
      have hrec : n / 10 < fuel := by
        have hlt : n / 10 < n := Nat.div_lt_self (by omega) (by norm_num)
        omega
      rw [List.foldl_append, List.length_append, ih (n / 10) hrec acc]
      simp only [List.foldl, List.length_singleton]
      rw [digitVal_digitChar (n % 10) (by omega), pow_succ, ← mul_assoc]
      set B := acc * 10 ^ (Nat.toDigitsCore 10 fuel (n / 10) []).length with hB
      omega

theorem decChars_repr (n : Nat) : decChars (Nat.repr n).data = n := by
  have h1 : (Nat.repr n).data = Nat.toDigitsCore 10 (n + 1) n [] := rfl
  rw [decChars, h1]
  rw [foldl_toDigitsCore (n + 1) n (Nat.lt_succ_self n) 0]
  simp

theorem repr_injective {a b : Nat} (h : Nat.repr a = Nat.repr b) : a = b := by
  have h2 : decChars (Nat.repr a).data = decChars (Nat.repr b).data := by rw [h]
  rwa [decChars_repr, decChars_repr] at h2

theorem pageFileName_injective {i j : Nat} (h : pageFileName i = pageFileName j) : i = j := by
  have hd : ("page-".data ++ (Nat.repr (i + 1)).data) ++ ".png".data =
      ("page-".data ++ (Nat.repr (j + 1)).data) ++ ".png".data := by
    have := congrArg String.data h
    simpa [pageFileName, String.data_append, List.append_assoc] using this
  have hmid : (Nat.repr (i + 1)).data = (Nat.repr (j + 1)).data :=
    List.append_cancel_left (List.append_cancel_right hd)
  have : i + 1 = j + 1 := repr_injective (String.ext hmid)
  omega

theorem pagePath_injective (d : String) : Function.Injective (pagePath d) := by
  intro i j h
  simp only [pagePath, joinPath] at h
  have hd := congrArg String.data h
  simp only [String.data_append] at hd
  exact pageFileName_injective (String.ext (List.append_cancel_left hd))

/-! ### Behaviour of the page loop -/

theorem processPages_ok (env : Env) (d : String) :
    ∀ (ns : List Nat) (acc : List String) (tr : List Event) (fs : List String)
      (res : List String) (tr' : List Event) (fs' : List String),
      processPages env d ns acc tr fs = (Except.ok res, tr', fs') →
      res = acc ++ ns.map (pagePath d) ∧
      fs' = fs ++ ns.map (pagePath d) ∧
      tr' = tr ++ ns.flatMap (pageEvents d) := by
  intro ns
  induction ns with
  | nil =>
    intro acc tr fs res tr' fs' h
    simp only [processPages, Prod.mk.injEq, Except.ok.injEq] at h
    simp [← h.1, ← h.2.1, ← h.2.2]
  | cons n rest ih =>
    intro acc tr fs res tr' fs' h
    simp only [processPages] at h
    split at h
    · simp at h
    · split at h
      · simp at h
      · split at h
        · simp at h
        · obtain ⟨h1, h2, h3⟩ := ih _ _ _ _ _ _ h
          refine ⟨?_, ?_, ?_⟩
          · simp [h1, pagePath]
          · simp [h2, pagePath]
          · simp [h3, pageEvents, pagePath]

theorem processPages_error (env : Env) (d : String) :
    ∀ (ns : List Nat) (acc : List String) (tr : List Event) (fs : List String)
      (e : String) (tr' : List Event) (fs' : List String),
      processPages env d ns acc tr fs = (Except.error e, tr', fs') →
      ∃ n, env.loadPage n = Except.error e ∨ env.getPixmap n 2 2 = Except.error e ∨
        ∃ s, env.savePix n s = Except.error e := by
  intro ns
  induction ns with
  | nil =>
    intro acc tr fs e tr' fs' h
    simp [processPages] at h
  | cons n rest ih =>
    intro acc tr fs e tr' fs' h
    simp only [processPages] at h
    split at h
    · rename_i u heq
      simp only [Prod.mk.injEq, Except.error.injEq] at h
      exact ⟨n, Or.inl (h.1 ▸ heq)⟩
    · split at h
      · rename_i u heq
        simp only [Prod.mk.injEq, Except.error.injEq] at h
        exact ⟨n, Or.inr (Or.inl (h.1 ▸ heq))⟩
      · split at h
        · rename_i u heq
          simp only [Prod.mk.injEq, Except.error.injEq] at h
          exact ⟨n, Or.inr (Or.inr ⟨_, h.1 ▸ heq⟩)⟩
        · exact ih _ _ _ _ _ _ h

theorem processPages_delta (env : Env) (d : String) :
    ∀ (ns : List Nat) (acc : List String) (tr : List Event) (fs : List String),
      ∃ Δ : List Event,
        (processPages env d ns acc tr fs).2.1 = tr ++ Δ ∧
        (processPages env d ns acc tr fs).2.2 = fs ++ writtenPaths Δ ∧
        Event.closeDoc ∉ Δ ∧
        (∀ p q, Event.convertCalled p q ∉ Δ) ∧
        (∀ n sx sy, Event.getPixmap n sx sy ∈ Δ → sx = 2 ∧ sy = 2) := by
  intro ns
  induction ns with
  | nil =>
    intro acc tr fs
    exact ⟨[], by simp [processPages, writtenPaths]⟩
  | cons n rest ih =>
    intro acc tr fs
    simp only [processPages]
    split
    · exact ⟨[], by simp [writtenPaths]⟩
    · split
      · exact ⟨[Event.loadPage n], by simp [writtenPaths]⟩
      · split
        · refine ⟨[Event.loadPage n, Event.getPixmap n 2 2], ?_⟩
          simp [writtenPaths]
        · obtain ⟨Δ, h1, h2, h3, h4, h5⟩ :=
            ih (acc ++ [joinPath d (pageFileName n)])
              (tr ++ [Event.loadPage n] ++ [Event.getPixmap n 2 2] ++
                [Event.fileWritten (joinPath d (pageFileName n))])
              (fs ++ [joinPath d (pageFileName n)])
          refine ⟨[Event.loadPage n, Event.getPixmap n 2 2,
            Event.fileWritten (joinPath d (pageFileName n))] ++ Δ, ?_, ?_, ?_, ?_, ?_⟩
          · rw [h1]; simp
          · rw [h2]; simp [writtenPaths]
          · intro hmem
            rcases List.mem_append.1 hmem with hm | hm
            · simp at hm
            · exact h3 hm
          · intro p q hmem
            rcases List.mem_append.1 hmem with hm | hm
            · simp at hm
            · exact h4 p q hm
          · intro m sx sy hmem
            rcases List.mem_append.1 hmem with hm | hm
            · simp only [List.mem_cons, List.not_mem_nil, or_false] at hm
              rcases hm with hm | hm | hm
              · exact absurd hm (by simp)
              · refine ⟨?_, ?_⟩ <;> injection hm
              · exact absurd hm (by simp)
            · exact h5 m sx sy hm

theorem lookup_okDict_success (paths : List String) :
    List.lookup "success" (okDict paths) = some (PyVal.bool true) := rfl

theorem lookup_errDict_success (e : String) :
    List.lookup "success" (errDict e) = some (PyVal.bool false) := rfl

theorem lookup_okDict_error (paths : List String) :
    List.lookup "error" (okDict paths) = none := rfl

theorem lookup_errDict_pages (e : String) :
    List.lookup "pages" (errDict e) = none := rfl

theorem lookup_errDict_image_paths (e : String) :
    List.lookup "image_paths" (errDict e) = none := rfl

theorem lookup_okDict_pages (paths : List String) :
    List.lookup "pages" (okDict paths) = some (PyVal.int paths.length) := rfl

theorem lookup_okDict_image_paths (paths : List String) :
    List.lookup "image_paths" (okDict paths) = some (PyVal.list (paths.map PyVal.str)) := rfl

/-- Master characterization of one `pdf_to_images` run: either every call
succeeded and the result, trace and filesystem are fully determined by the
page count the open call returned, or some call raised and the run
returned the failure dictionary carrying that exception's message. -/
theorem pdf_to_images_spec (env : Env) (fs0 : List String) (p d : String) :
    (∃ N, env.openDoc p = Except.ok N ∧
      pdf_to_images env fs0 p d =
        (okDict ((List.range N).map (pagePath d)), successTrace p d N,
         fs0 ++ (List.range N).map (pagePath d))) ∨
    (∃ e, (pdf_to_images env fs0 p d).1 = errDict e ∧ Env.raises env p d e ∧
      (pdf_to_images env fs0 p d).2.2 =
        fs0 ++ writtenPaths (pdf_to_images env fs0 p d).2.1 ∧
      Event.closeDoc ∉ (pdf_to_images env fs0 p d).2.1 ∧
      (∀ n sx sy, Event.getPixmap n sx sy ∈ (pdf_to_images env fs0 p d).2.1 →
        sx = 2 ∧ sy = 2) ∧
      (pdf_to_images env fs0 p d).2.1.head? = some (Event.convertCalled p d)) := by
  cases hmd : env.makedirs d with
  | error e =>
    right
    refine ⟨e, ?_, Or.inl hmd, ?_, ?_, ?_, ?_⟩
    · simp [pdf_to_images, hmd]
    · simp [pdf_to_images, hmd, writtenPaths]
    · simp [pdf_to_images, hmd]
    · simp [pdf_to_images, hmd]
    · simp [pdf_to_images, hmd]
  | ok u =>
    cases hod : env.openDoc p with
    | error e =>
      right
      refine ⟨e, ?_, Or.inr (Or.inl hod), ?_, ?_, ?_, ?_⟩
      · simp [pdf_to_images, hmd, hod]
      · simp [pdf_to_images, hmd, hod, writtenPaths]
      · simp [pdf_to_images, hmd, hod]
      · simp [pdf_to_images, hmd, hod]
      · simp [pdf_to_images, hmd, hod]
    | ok N =>
      rcases hpp : processPages env d (List.range N) []
          (([Event.convertCalled p d] ++ [Event.makedirs d]) ++ [Event.openDoc p N]) fs0 with
        ⟨r, tr, fs⟩
      cases r with
      | ok res =>
        left
        obtain ⟨h1, h2, h3⟩ := processPages_ok env d (List.range N) [] _ fs0 res tr fs hpp
        refine ⟨N, rfl, ?_⟩
        simp only [pdf_to_images, hmd, hod, hpp]
        rw [h1, h2, h3]
        simp [successTrace]
      | error e =>
        right
        obtain ⟨Δ, hd1, hd2, hd3, hd4, hd5⟩ := processPages_delta env d (List.range N) []
          (([Event.convertCalled p d] ++ [Event.makedirs d]) ++ [Event.openDoc p N]) fs0
        rw [hpp] at hd1 hd2
        simp only at hd1 hd2
        obtain ⟨n, hraise⟩ := processPages_error env d (List.range N) [] _ fs0 e tr fs hpp
        refine ⟨e, ?_, ?_, ?_, ?_, ?_, ?_⟩
        · simp only [pdf_to_images, hmd, hod, hpp]
        · rcases hraise with h | h | ⟨s, h⟩
          · exact Or.inr (Or.inr (Or.inl ⟨n, h⟩))
          · exact Or.inr (Or.inr (Or.inr (Or.inl ⟨n, h⟩)))
          · exact Or.inr (Or.inr (Or.inr (Or.inr ⟨n, s, h⟩)))
        · simp only [pdf_to_images, hmd, hod, hpp]
          rw [hd1, hd2]
          simp [writtenPaths]
        · simp only [pdf_to_images, hmd, hod, hpp]
          rw [hd1]
          intro hmem
          rcases List.mem_append.1 hmem with hm | hm
          · simp at hm
          · exact hd3 hm
        · simp only [pdf_to_images, hmd, hod, hpp]
          rw [hd1]
          intro m sx sy hmem
          rcases List.mem_append.1 hmem with hm | hm
          · simp at hm
          · exact hd5 m sx sy hm
        · simp only [pdf_to_images, hmd, hod, hpp]
          rw [hd1]
          rfl

theorem mem_writtenPaths (tr : List Event) (q : String) :
    q ∈ writtenPaths tr ↔ Event.fileWritten q ∈ tr := by
  simp only [writtenPaths, List.mem_filterMap]
  constructor
  · rintro ⟨a, ha, hfa⟩
    cases a <;> simp_all
  · intro h
    exact ⟨Event.fileWritten q, h, rfl⟩

/-- With two positional arguments naming an existing path, `main` runs the
conversion, prints its dictionary and exits 0. -/
theorem main_conv (env : Env) (os : OS) (fs0 : List String) (a0 p d : String)
    (hargv : os.argv = [a0, p, d]) (hex : os.pathExists p = true) :
    main env os fs0 =
      ⟨[(pdf_to_images env fs0 p d).1], 0,
       (pdf_to_images env fs0 p d).2.1, (pdf_to_images env fs0 p d).2.2⟩ := by
  simp [main, hargv, hex]

/-- With two positional arguments naming a missing path, `main` prints the
not-found dictionary, exits 1, and performs no conversion. -/
theorem main_notfound (env : Env) (os : OS) (fs0 : List String) (a0 p d : String)
    (hargv : os.argv = [a0, p, d]) (hex : os.pathExists p = false) :
    main env os fs0 = ⟨[errDict (notFoundError p)], 1, [], fs0⟩ := by
  simp [main, hargv, hex]

/-- With any other argument count, `main` prints the usage dictionary,
exits 1, and performs no conversion. -/
theorem main_usage (env : Env) (os : OS) (fs0 : List String)
    (hargv : os.argv.length ≠ 3) :
    main env os fs0 = ⟨[errDict usageError], 1, [], fs0⟩ := by
  simp [main, hargv]

/-! ### The claims -/

/-- C1: for every invocation of `pdf_to_images` that returns a success
result, the `pages` field equals the number of entries in `image_paths`,
which equals the page count of the source document at the time it was
opened. -/
theorem pages_eq_image_paths_eq_doc_count (env : Env) (fs0 : List String)
    (p d : String) (N : Nat)
    (hopen : env.openDoc p = Except.ok N)
    (hsucc : List.lookup "success" (pdf_to_images env fs0 p d).1 = some (PyVal.bool true)) :
    ∃ paths : List String,
      List.lookup "pages" (pdf_to_images env fs0 p d).1 = some (PyVal.int paths.length) ∧
      List.lookup "image_paths" (pdf_to_images env fs0 p d).1 =
        some (PyVal.list (paths.map PyVal.str)) ∧
      paths.length = N := by
  rcases pdf_to_images_spec env fs0 p d with ⟨M, hM, heq⟩ | ⟨e, he, -⟩
  · rw [hM] at hopen
    injection hopen with hMN
    rw [hMN] at heq
    rw [heq]
    exact ⟨(List.range N).map (pagePath d), lookup_okDict_pages _,
      lookup_okDict_image_paths _, by simp⟩
  · rw [he, lookup_errDict_success] at hsucc
    simp at hsucc

theorem pages_eq_image_paths_eq_doc_count_witness :
    (envOk 2).openDoc "doc.pdf" = Except.ok 2 ∧
    List.lookup "success" (pdf_to_images (envOk 2) [] "doc.pdf" "out").1 =
      some (PyVal.bool true) ∧
    ∃ paths : List String,
      List.lookup "pages" (pdf_to_images (envOk 2) [] "doc.pdf" "out").1 =
        some (PyVal.int paths.length) ∧
      List.lookup "image_paths" (pdf_to_images (envOk 2) [] "doc.pdf" "out").1 =
        some (PyVal.list (paths.map PyVal.str)) ∧
      paths.length = 2 :=
  ⟨rfl, rfl, pages_eq_image_paths_eq_doc_count (envOk 2) [] "doc.pdf" "out" 2 rfl rfl⟩

/-- C2: on a successful run over an `N`-page document, `image_paths` is
ordered by page index — entry `i` is `output_dir` joined with
`page-{i+1}.png` — so the 1-based indices are unique and increasing and
the paths are collision-free within the run. -/
theorem image_paths_ordered_collision_free (env : Env) (fs0 : List String)
    (p d : String) (N : Nat)
    (hopen : env.openDoc p = Except.ok N)
    (hsucc : List.lookup "success" (pdf_to_images env fs0 p d).1 = some (PyVal.bool true)) :
    ∃ paths : List String,
      List.lookup "image_paths" (pdf_to_images env fs0 p d).1 =
        some (PyVal.list (paths.map PyVal.str)) ∧
      paths = (List.range N).map (pagePath d) ∧
      (∀ i, i < N →
        paths[i]? = some (joinPath d ("page-" ++ Nat.repr (i + 1) ++ ".png"))) ∧
      paths.Nodup := by
  rcases pdf_to_images_spec env fs0 p d with ⟨M, hM, heq⟩ | ⟨e, he, -⟩
  · rw [hM] at hopen
    injection hopen with hMN
    rw [hMN] at heq
    rw [heq]
    refine ⟨(List.range N).map (pagePath d), lookup_okDict_image_paths _, rfl, ?_, ?_⟩
    · intro i hi
      simp [pagePath, pageFileName, hi]
    · exact (List.nodup_range N).map (pagePath_injective d)
  · rw [he, lookup_errDict_success] at hsucc
    simp at hsucc

theorem image_paths_ordered_collision_free_witness :
    (envOk 2).openDoc "doc.pdf" = Except.ok 2 ∧
    List.lookup "success" (pdf_to_images (envOk 2) [] "doc.pdf" "out").1 =
      some (PyVal.bool true) ∧
    ∃ paths : List String,
      List.lookup "image_paths" (pdf_to_images (envOk 2) [] "doc.pdf" "out").1 =
        some (PyVal.list (paths.map PyVal.str)) ∧
      paths = (List.range 2).map (pagePath "out") ∧
      (∀ i, i < 2 →
        paths[i]? = some (joinPath "out" ("page-" ++ Nat.repr (i + 1) ++ ".png"))) ∧
      paths.Nodup :=
  ⟨rfl, rfl, image_paths_ordered_collision_free (envOk 2) [] "doc.pdf" "out" 2 rfl rfl⟩

/-- C3: whenever the argument-count and path-existence checks pass, the
process exits with status 0 regardless of the rasterization outcome; the
conversion result is signaled only through the printed dictionary. -/
theorem exit_zero_regardless_of_conversion (env : Env) (os : OS) (fs0 : List String)
    (a0 p d : String)
    (hargv : os.argv = [a0, p, d]) (hex : os.pathExists p = true) :
    (main env os fs0).exitCode = 0 ∧
    (main env os fs0).stdout = [(pdf_to_images env fs0 p d).1] := by
  rw [main_conv env os fs0 a0 p d hargv hex]
  exact ⟨rfl, rfl⟩

theorem exit_zero_regardless_of_conversion_witness :
    (osFor ["prog", "f.pdf", "out"] true).argv = ["prog", "f.pdf", "out"] ∧
    (osFor ["prog", "f.pdf", "out"] true).pathExists "f.pdf" = true ∧
    List.lookup "success"
      (pdf_to_images (envBadOpen "bad pdf") [] "f.pdf" "out").1 =
        some (PyVal.bool false) ∧
    ((main (envBadOpen "bad pdf") (osFor ["prog", "f.pdf", "out"] true) []).exitCode = 0 ∧
     (main (envBadOpen "bad pdf") (osFor ["prog", "f.pdf", "out"] true) []).stdout =
       [(pdf_to_images (envBadOpen "bad pdf") [] "f.pdf" "out").1]) :=
  ⟨rfl, rfl, rfl,
   exit_zero_regardless_of_conversion (envBadOpen "bad pdf")
     (osFor ["prog", "f.pdf", "out"] true) [] "prog" "f.pdf" "out" rfl rfl⟩

/-- C4: on any exception during opening, rasterizing or saving,
`pdf_to_images` aborts and returns the failure dictionary whose `error`
field is the exception's textual description; files already written stay
on the filesystem, nothing is deleted, and the result reports neither
`image_paths` nor `pages`. -/
theorem failure_preserves_written_files (env : Env) (fs0 : List String)
    (p d : String)
    (hfail : List.lookup "success" (pdf_to_images env fs0 p d).1 = some (PyVal.bool false)) :
    ∃ e, (pdf_to_images env fs0 p d).1 = errDict e ∧ Env.raises env p d e ∧
      (pdf_to_images env fs0 p d).2.2 =
        fs0 ++ writtenPaths (pdf_to_images env fs0 p d).2.1 ∧
      (∀ f ∈ fs0, f ∈ (pdf_to_images env fs0 p d).2.2) ∧
      (∀ q, Event.fileWritten q ∈ (pdf_to_images env fs0 p d).2.1 →
        q ∈ (pdf_to_images env fs0 p d).2.2) ∧
      List.lookup "image_paths" (pdf_to_images env fs0 p d).1 = none ∧
      List.lookup "pages" (pdf_to_images env fs0 p d).1 = none := by
  rcases pdf_to_images_spec env fs0 p d with ⟨M, hM, heq⟩ | ⟨e, he, hr, hfs, -⟩
  · rw [heq, lookup_okDict_success] at hfail
    simp at hfail
  · refine ⟨e, he, hr, hfs, ?_, ?_, ?_, ?_⟩
    · intro f hf
      rw [hfs]
      exact List.mem_append_left _ hf
    · intro q hq
      rw [hfs]
      exact List.mem_append_right _ ((mem_writtenPaths _ q).2 hq)
    · rw [he]; exact lookup_errDict_image_paths e
    · rw [he]; exact lookup_errDict_pages e

theorem failure_preserves_written_files_witness :
    List.lookup "success"
      (pdf_to_images (envBadSave 3 1 "disk full") ["old.txt"] "doc.pdf" "out").1 =
        some (PyVal.bool false) ∧
    ∃ e, (pdf_to_images (envBadSave 3 1 "disk full") ["old.txt"] "doc.pdf" "out").1 =
        errDict e ∧
      Env.raises (envBadSave 3 1 "disk full") "doc.pdf" "out" e ∧
      (pdf_to_images (envBadSave 3 1 "disk full") ["old.txt"] "doc.pdf" "out").2.2 =
        ["old.txt"] ++ writtenPaths
          (pdf_to_images (envBadSave 3 1 "disk full") ["old.txt"] "doc.pdf" "out").2.1 ∧
      (∀ f ∈ ["old.txt"],
        f ∈ (pdf_to_images (envBadSave 3 1 "disk full") ["old.txt"] "doc.pdf" "out").2.2) ∧
      (∀ q, Event.fileWritten q ∈
          (pdf_to_images (envBadSave 3 1 "disk full") ["old.txt"] "doc.pdf" "out").2.1 →
        q ∈ (pdf_to_images (envBadSave 3 1 "disk full") ["old.txt"] "doc.pdf" "out").2.2) ∧
      List.lookup "image_paths"
        (pdf_to_images (envBadSave 3 1 "disk full") ["old.txt"] "doc.pdf" "out").1 = none ∧
      List.lookup "pages"
        (pdf_to_images (envBadSave 3 1 "disk full") ["old.txt"] "doc.pdf" "out").1 = none :=
  ⟨rfl, failure_preserves_written_files (envBadSave 3 1 "disk full")
    ["old.txt"] "doc.pdf" "out" rfl⟩

/-- C5: with exactly two positional arguments and a `pdf_path` that does
not exist, the program prints one dictionary whose error message is the
literal path appended to "PDF file not found: ", exits with status 1, and
never attempts conversion (no events, filesystem untouched). -/
theorem missing_pdf_exit_one (env : Env) (os : OS) (fs0 : List String)
    (a0 p d : String)
    (hargv : os.argv = [a0, p, d]) (hex : os.pathExists p = false) :
    main env os fs0 = ⟨[errDict ("PDF file not found: " ++ p)], 1, [], fs0⟩ :=
  main_notfound env os fs0 a0 p d hargv hex

theorem missing_pdf_exit_one_witness :
    (osFor ["prog", "nope.pdf", "out"] false).argv = ["prog", "nope.pdf", "out"] ∧
    (osFor ["prog", "nope.pdf", "out"] false).pathExists "nope.pdf" = false ∧
    main (envOk 1) (osFor ["prog", "nope.pdf", "out"] false) [] =
      ⟨[errDict ("PDF file not found: " ++ "nope.pdf")], 1, [], []⟩ :=
  ⟨rfl, rfl,
   missing_pdf_exit_one (envOk 1) (osFor ["prog", "nope.pdf", "out"] false) []
     "prog" "nope.pdf" "out" rfl rfl⟩

/-- C6: with any positional argument count other than two, the program
prints a dictionary with `success: false` and the usage message, exits
with status 1, and performs no conversion. -/
theorem wrong_arg_count_exit_one (env : Env) (os : OS) (fs0 : List String)
    (hargv : os.argv.length ≠ 3) :
    main env os fs0 = ⟨[errDict usageError], 1, [], fs0⟩ :=
  main_usage env os fs0 hargv

theorem wrong_arg_count_exit_one_witness :
    (osFor ["prog"] true).argv.length ≠ 3 ∧
    main (envOk 1) (osFor ["prog"] true) [] = ⟨[errDict usageError], 1, [], []⟩ :=
  ⟨by decide, wrong_arg_count_exit_one (envOk 1) (osFor ["prog"] true) [] (by decide)⟩

/-- C7: every rasterization of every run uses the fixed `Matrix(2, 2)`
transform — every `getPixmap` event carries scale factors 2 and 2 — and on
a successful run over an `N`-page document every page is rasterized with
exactly that transform. -/
theorem fixed_two_x_scale (env : Env) (fs0 : List String) (p d : String) :
    (∀ n sx sy, Event.getPixmap n sx sy ∈ (pdf_to_images env fs0 p d).2.1 →
      sx = 2 ∧ sy = 2) ∧
    (∀ N, env.openDoc p = Except.ok N →
      List.lookup "success" (pdf_to_images env fs0 p d).1 = some (PyVal.bool true) →
      ∀ n, n < N → Event.getPixmap n 2 2 ∈ (pdf_to_images env fs0 p d).2.1) := by
  rcases pdf_to_images_spec env fs0 p d with ⟨M, hM, heq⟩ | ⟨e, he, -, -, -, hpix, -⟩
  · constructor
    · intro n sx sy h
      rw [heq] at h
      simp only [successTrace] at h
      rcases List.mem_append.1 h with h | h
      · rcases List.mem_append.1 h with h | h
        · simp at h
        · obtain ⟨m, -, hm⟩ := List.mem_flatMap.1 h
          simp only [pageEvents, List.mem_cons, List.not_mem_nil, or_false] at hm
          rcases hm with hm | hm | hm
          · exact absurd hm (by simp)
          · injection hm with e1 e2 e3
            exact ⟨e2, e3⟩
          · exact absurd hm (by simp)
      · simp at h
    · intro N hN hsucc n hn
      rw [hM] at hN
      injection hN with hMN
      rw [← hMN] at hn
      rw [heq]
      simp only [successTrace]
      refine List.mem_append.2 (Or.inl (List.mem_append.2 (Or.inr ?_)))
      exact List.mem_flatMap.2 ⟨n, List.mem_range.2 hn, by simp [pageEvents]⟩
  · constructor
    · exact hpix
    · intro N hN hsucc n hn
      rw [he, lookup_errDict_success] at hsucc
      simp at hsucc

theorem fixed_two_x_scale_witness :
    Event.getPixmap 0 2 2 ∈ (pdf_to_images (envOk 1) [] "doc.pdf" "out").2.1 ∧
    2 = 2 ∧ 2 = 2 :=
  ⟨(fixed_two_x_scale (envOk 1) [] "doc.pdf" "out").2 1 rfl rfl 0 (by decide),
   (fixed_two_x_scale (envOk 1) [] "doc.pdf" "out").1 0 2 2 (by decide)⟩

/-- C8: the document handle is closed exactly once, as the last event of
the run, and only on the success path; when the run fails, no close ever
happens before `pdf_to_images` returns. -/
theorem close_once_success_only (env : Env) (fs0 : List String) (p d : String) :
    (List.lookup "success" (pdf_to_images env fs0 p d).1 = some (PyVal.bool true) →
      ∃ tr0, (pdf_to_images env fs0 p d).2.1 = tr0 ++ [Event.closeDoc] ∧
        Event.closeDoc ∉ tr0 ∧
        ((pdf_to_images env fs0 p d).2.1).count Event.closeDoc = 1) ∧
    (List.lookup "success" (pdf_to_images env fs0 p d).1 = some (PyVal.bool false) →
      Event.closeDoc ∉ (pdf_to_images env fs0 p d).2.1) := by
  rcases pdf_to_images_spec env fs0 p d with ⟨M, hM, heq⟩ | ⟨e, he, -, -, hclose, -, -⟩
  · have hnot : Event.closeDoc ∉
        [Event.convertCalled p d, Event.makedirs d, Event.openDoc p M] ++
          (List.range M).flatMap (pageEvents d) := by
      intro hmem
      rcases List.mem_append.1 hmem with hm | hm
      · simp at hm
      · obtain ⟨m, -, hm⟩ := List.mem_flatMap.1 hm
        simp [pageEvents] at hm
    constructor
    · intro _
      rw [heq]
      refine ⟨[Event.convertCalled p d, Event.makedirs d, Event.openDoc p M] ++
        (List.range M).flatMap (pageEvents d), rfl, hnot, ?_⟩
      show (successTrace p d M).count Event.closeDoc = 1
      rw [show successTrace p d M =
        ([Event.convertCalled p d, Event.makedirs d, Event.openDoc p M] ++
          (List.range M).flatMap (pageEvents d)) ++ [Event.closeDoc] from rfl]
      rw [List.count_append, List.count_eq_zero.2 hnot]
      simp
    · intro hfail
      rw [heq] at hfail
      simp [lookup_okDict_success] at hfail
  · constructor
    · intro hsucc
      rw [he, lookup_errDict_success] at hsucc
      simp at hsucc
    · intro _
      exact hclose

theorem close_once_success_only_witness :
    List.lookup "success" (pdf_to_images (envOk 1) [] "doc.pdf" "out").1 =
      some (PyVal.bool true) ∧
    (∃ tr0, (pdf_to_images (envOk 1) [] "doc.pdf" "out").2.1 =
        tr0 ++ [Event.closeDoc] ∧
      Event.closeDoc ∉ tr0 ∧
      ((pdf_to_images (envOk 1) [] "doc.pdf" "out").2.1).count Event.closeDoc = 1) ∧
    List.lookup "success" (pdf_to_images (envBadOpen "boom") [] "doc.pdf" "out").1 =
      some (PyVal.bool false) ∧
    Event.closeDoc ∉ (pdf_to_images (envBadOpen "boom") [] "doc.pdf" "out").2.1 :=
  ⟨rfl, (close_once_success_only (envOk 1) [] "doc.pdf" "out").1 rfl, rfl,
   (close_once_success_only (envBadOpen "boom") [] "doc.pdf" "out").2 rfl⟩

/-- C9: `pdf_to_images` is total on its inputs: it always returns a
dictionary, which is either the success shape (keys `success`, `pages`,
`image_paths` and no `error`) or the failure shape (keys `success`,
`error` and no `pages` or `image_paths`). -/
theorem result_shape_exclusive (env : Env) (fs0 : List String) (p d : String) :
    (∃ paths, (pdf_to_images env fs0 p d).1 = okDict paths ∧
      List.lookup "error" (pdf_to_images env fs0 p d).1 = none) ∨
    (∃ e, (pdf_to_images env fs0 p d).1 = errDict e ∧
      List.lookup "pages" (pdf_to_images env fs0 p d).1 = none ∧
      List.lookup "image_paths" (pdf_to_images env fs0 p d).1 = none) := by
  rcases pdf_to_images_spec env fs0 p d with ⟨M, -, heq⟩ | ⟨e, he, -⟩
  · left
    refine ⟨(List.range M).map (pagePath d), ?_, ?_⟩
    · rw [heq]
    · rw [heq]
      exact lookup_okDict_error _
  · right
    refine ⟨e, he, ?_, ?_⟩
    · rw [he]
      exact lookup_errDict_pages e
    · rw [he]
      exact lookup_errDict_image_paths e

/-- C10: a `pdf_path` that exists but is not a regular file passes the
`os.path.exists` pre-check, so the not-found branch is not taken: the
conversion runs, the process exits 0, and any failure is reported only as
a `success: false` dictionary. -/
theorem existing_non_file_passes_check (env : Env) (os : OS) (fs0 : List String)
    (a0 p d : String)
    (hargv : os.argv = [a0, p, d]) (hex : os.pathExists p = true)
    (hnotfile : os.isRegularFile p = false) :
    (main env os fs0).exitCode = 0 ∧
    (main env os fs0).stdout = [(pdf_to_images env fs0 p d).1] ∧
    (main env os fs0).events.head? = some (Event.convertCalled p d) ∧
    (List.lookup "success" (pdf_to_images env fs0 p d).1 = some (PyVal.bool false) →
      ∃ e, (pdf_to_images env fs0 p d).1 = errDict e) := by
  rw [main_conv env os fs0 a0 p d hargv hex]
  refine ⟨rfl, rfl, ?_, ?_⟩
  · rcases pdf_to_images_spec env fs0 p d with ⟨M, -, heq⟩ | ⟨e, -, -, -, -, -, hhead⟩
    · rw [heq]
      simp [successTrace]
    · exact hhead
  · intro hfail
    rcases pdf_to_images_spec env fs0 p d with ⟨M, -, heq⟩ | ⟨e, he, -⟩
    · rw [heq] at hfail
      simp [lookup_okDict_success] at hfail
    · exact ⟨e, he⟩

theorem existing_non_file_passes_check_witness :
    (osFor ["prog", "adir", "out"] true).argv = ["prog", "adir", "out"] ∧
    (osFor ["prog", "adir", "out"] true).pathExists "adir" = true ∧
    (osFor ["prog", "adir", "out"] true).isRegularFile "adir" = false ∧
    ((main (envBadOpen "is a directory") (osFor ["prog", "adir", "out"] true) []).exitCode = 0 ∧
     (main (envBadOpen "is a directory") (osFor ["prog", "adir", "out"] true) []).stdout =
       [(pdf_to_images (envBadOpen "is a directory") [] "adir" "out").1] ∧
     (main (envBadOpen "is a directory") (osFor ["prog", "adir", "out"] true) []).events.head? =
       some (Event.convertCalled "adir" "out") ∧
     (List.lookup "success" (pdf_to_images (envBadOpen "is a directory") [] "adir" "out").1 =
        some (PyVal.bool false) →
       ∃ e, (pdf_to_images (envBadOpen "is a directory") [] "adir" "out").1 = errDict e)) :=
  ⟨rfl, rfl, rfl,
   existing_non_file_passes_check (envBadOpen "is a directory")
     (osFor ["prog", "adir", "out"] true) [] "prog" "adir" "out" rfl rfl rfl⟩

end PdfOcr
